import Mathlib

/-!
Verification development for the NetworkIQ connection analyzer
(`src/networkiq.py`).  The Python source is shallowly embedded: every pure
function is translated to a computable Lean definition, the Flask routes
become explicit state-passing functions over an `AppData` state, and the
two external network collaborators (Tavily search plus Gemini generation,
spec section 6) are modelled as an oracle parameter
`String → Except String String` mapping the issued query to either the
final summary text or the raised exception message.  The csv layer is
modelled at the interface boundary the spec describes (comma-delimited
lines, header line defining field names); quoting is not exercised by any
claim or input used here.  Python `None` cell padding and the empty string
behave identically under every truthiness test the source performs on
cells, so missing cells are modelled as `""`.
-/

namespace NetworkIQ

/-- ASCII lower-casing of a string, character by character, as Python
`str.lower` acts on the ASCII range used by the header labels and the
classifier patterns. -/
def pyLower (s : String) : String :=
  ⟨s.data.map Char.toLower⟩

/-- Whitespace test matching Python `str.strip`'s default set on the
characters that can occur here. -/
def wsCh (c : Char) : Bool :=
  c == ' ' || c == '\t' || c == '\n' || c == '\r' || c == '\x0b' || c == '\x0c'

/-- Python `str.strip()`: drop leading and trailing whitespace. -/
def pyStrip (s : String) : String :=
  ⟨((s.data.dropWhile wsCh).reverse.dropWhile wsCh).reverse⟩

/-- Boolean prefix test on character lists. -/
def prefixCh : List Char → List Char → Bool
  | [], _ => true
  | _ :: _, [] => false
  | a :: as, b :: bs => a == b && prefixCh as bs

/-- Boolean substring test on character lists (needle first). -/
def infixCh (n : List Char) : List Char → Bool
  | [] => prefixCh n []
  | b :: bs => prefixCh n (b :: bs) || infixCh n bs

/-- Python `needle in hay` substring containment. -/
def containsStr (hay needle : String) : Bool :=
  infixCh needle.data hay.data

/-- Python `re.search` of a start-anchored literal alternative: the text
starts with the pattern. -/
def startsWithStr (s p : String) : Bool :=
  prefixCh p.data s.data

/-- Python `str.split(',')`: split a character list at every comma,
keeping empty pieces (so the empty string yields one empty piece). -/
def splitCommaCh : List Char → List (List Char)
  | [] => [[]]
  | c :: cs =>
    if c == ',' then [] :: splitCommaCh cs
    else
      match splitCommaCh cs with
      | [] => [[c]]
      | p :: ps => (c :: p) :: ps

/-- Python `line.split(',')` on strings. -/
def splitComma (s : String) : List String :=
  (splitCommaCh s.data).map String.mk

/-- True on any of the given needles occurring in `p`; models a Python
`re.search` alternation of unanchored literal alternatives. -/
def containsAny (p : String) (pats : List String) : Bool :=
  pats.any (fun t => containsStr p t)

/-- Trigger of the Founders rule (source line 75). -/
def foundersB (p : String) : Bool :=
  containsAny p ["founder", "co-founder", "cofounder", "owner"]

/-- Trigger of the Executives rule (source line 77); the c-suite
alternatives are start-anchored, "chief" is not. -/
def executivesB (p : String) : Bool :=
  startsWithStr p "ceo" || startsWithStr p "cto" || startsWithStr p "cfo" ||
  startsWithStr p "coo" || startsWithStr p "cmo" || startsWithStr p "cio" ||
  containsStr p "chief"

/-- Trigger of the Leadership rule (source line 79); "vp" is
start-anchored, the rest are not. -/
def leadershipB (p : String) : Bool :=
  startsWithStr p "vp" || containsAny p ["vice president", "director", "head of"]

/-- Trigger of the Recruiting rule (source line 81). -/
def recruitingB (p : String) : Bool :=
  containsAny p ["recruit", "talent", "hr", "human resource", "people ops"]

/-- Trigger of the Investors rule (source line 83). -/
def investorsB (p : String) : Bool :=
  containsAny p ["investor", "partner", "vc", "venture", "capital", "angel"]

/-- Trigger of the Engineering rule (source line 85). -/
def engineeringB (p : String) : Bool :=
  containsAny p ["engineer", "developer", "software", "swe", "sde", "programmer", "architect"]

/-- Trigger of the Product rule (source line 87). -/
def productB (p : String) : Bool :=
  containsAny p ["product", "pm", "program manager"]

/-- Trigger of the Design rule (source line 89). -/
def designB (p : String) : Bool :=
  containsAny p ["design", "ux", "ui", "creative"]

/-- Trigger of the Sales rule (source line 91). -/
def salesB (p : String) : Bool :=
  containsAny p ["sales", "account", "business dev", "bd"]

/-- Trigger of the Marketing rule (source line 93). -/
def marketingB (p : String) : Bool :=
  containsAny p ["market", "growth", "brand", "content", "seo", "social"]

/-- Trigger of the Consulting rule (source line 95). -/
def consultingB (p : String) : Bool :=
  containsAny p ["consult", "advisor", "strateg"]

/-- Trigger of the Students rule (source line 97). -/
def studentsB (p : String) : Bool :=
  containsAny p ["student", "intern", "university", "college", "phd", "research"]

/-- Trigger of the Data rule (source line 99). -/
def dataB (p : String) : Bool :=
  containsAny p ["analy", "data", "scientist"]

/-- Trigger of the Finance rule (source line 101). -/
def financeB (p : String) : Bool :=
  containsAny p ["finance", "accounting", "controller"]

/-- Trigger of the Legal rule (source line 103). -/
def legalB (p : String) : Bool :=
  containsAny p ["legal", "counsel", "attorney", "lawyer"]

/-- Trigger of the Operations rule (source line 105). -/
def operationsB (p : String) : Bool :=
  containsAny p ["operat", "admin", "office", "assistant"]

/-- The classifier `categorize_connection` of source lines 71-107 as a
function of the title text: lower-case the title, then evaluate the
ordered rules and return the tag of the first match, defaulting to
"Other". -/
def categorize_position (position : String) : String :=
  let p := pyLower position
  if foundersB p then "Founders"
  else if executivesB p then "Executives"
  else if leadershipB p then "Leadership"
  else if recruitingB p then "Recruiting"
  else if investorsB p then "Investors"
  else if engineeringB p then "Engineering"
  else if productB p then "Product"
  else if designB p then "Design"
  else if salesB p then "Sales"
  else if marketingB p then "Marketing"
  else if consultingB p then "Consulting"
  else if studentsB p then "Students"
  else if dataB p then "Data"
  else if financeB p then "Finance"
  else if legalB p then "Legal"
  else if operationsB p then "Operations"
  else "Other"

/-- One connection record, source lines 51-63.  `blurb` and `enrichedAt`
are `none` until enrichment; `category` is `none` until assignment at
parse time. -/
structure Conn where
  id : String
  firstName : String
  lastName : String
  email : String
  company : String
  position : String
  url : String
  connectedOn : String
  blurb : Option String
  enrichedAt : Option String
  category : Option String
deriving DecidableEq

/-- The classifier entry point `categorize_connection` (source line 71):
the title text is the record's position field, `None` read as the empty
string. -/
def categorize_connection (c : Conn) : String :=
  categorize_position c.position

/-- Key normalisation `k.lower().strip()` of source line 49. -/
def normKey (s : String) : String :=
  pyStrip (pyLower s)

/-- Cell lookup `row.get(field, '')` on the dict rebuilt from the
normalised header keys zipped with the row's values (source lines 45-59):
the last binding of a key wins, absent keys give the empty string. -/
def rowGet (keys vals : List String) (field : String) : String :=
  match (keys.zip vals).reverse.find? (fun kv => kv.1 == field) with
  | some kv => kv.2
  | none => ""

/-- The record identifier string of source line 52,
`f"conn_{i}_{int(time.time()*1000)}"` with the clock reading abstracted
as `now`. -/
def mkId (i : Nat) (now : Nat) : String :=
  "conn_" ++ toString i ++ "_" ++ toString now

/-- The header keys of a parse pass: the header line split at commas and
normalised (source lines 45-49). -/
def headerKeys (header : String) : List String :=
  (splitComma header).map normKey

/-- Body of the row loop of source lines 47-67: build the record from the
row's cells, and keep it only if its first or last name is truthy,
assigning the classifier category at that point. -/
def buildRow (keys : List String) (now : Nat) (p : Nat × String) : Option Conn :=
  let vals := splitComma p.2
  let c : Conn :=
    { id := mkId p.1 now
      firstName := rowGet keys vals "first name"
      lastName := rowGet keys vals "last name"
      email := rowGet keys vals "email address"
      company := rowGet keys vals "company"
      position := rowGet keys vals "position"
      url := rowGet keys vals "url"
      connectedOn := rowGet keys vals "connected on"
      blurb := none
      enrichedAt := none
      category := none }
  if c.firstName ≠ "" ∨ c.lastName ≠ "" then
    some { c with category := some (categorize_connection c) }
  else none

/-- The enumerated row loop of source lines 47-67, indexing the yielded
rows from `i` upward. -/
def parseRowsFrom (keys : List String) (now : Nat) : Nat → List String → List Conn
  | _, [] => []
  | i, l :: ls =>
    match buildRow keys now (i, l) with
    | some c => c :: parseRowsFrom keys now (i + 1) ls
    | none => parseRowsFrom keys now (i + 1) ls

/-- The `csv.DictReader` pass of source lines 45-67 over the lines from
the header onward: the first line defines the field names, and the reader
skips blank lines without consuming a row index. -/
def parseBody (now : Nat) : List String → List Conn
  | [] => []
  | header :: rest =>
    parseRowsFrom (headerKeys header) now 0 (rest.filter (fun l => !(l == "")))

/-- Header-line test of source line 40: the lower-cased line contains
both the "first name" and the "last name" labels. -/
def isHeaderLine (l : String) : Bool :=
  containsStr (pyLower l) "first name" && containsStr (pyLower l) "last name"

/-- The header scan of source lines 38-42, carrying the index of the
current line; `header_idx` stays 0 when no line matches. -/
def findHeaderIdxFrom : Nat → List String → Nat
  | _, [] => 0
  | i, l :: ls => if isHeaderLine l then i else findHeaderIdxFrom (i + 1) ls

/-- The header index of a raw export (source lines 37-42). -/
def findHeaderIdx (lines : List String) : Nat :=
  findHeaderIdxFrom 0 lines

/-- `parse_linkedin_csv` (source lines 32-69) on the list of lines of the
uploaded file: find the header, discard the preamble, and run the reader
on the remaining lines. -/
def parse_linkedin_csv (now : Nat) (lines : List String) : List Conn :=
  parseBody now (lines.drop (findHeaderIdx lines))

/-- Truthiness of a record's stored summary, the `c.get("blurb")` test of
source lines 286 and 314: a summary counts as present only when it is a
non-empty string. -/
def blurbTruthy (c : Conn) : Bool :=
  match c.blurb with
  | some s => !(s == "")
  | none => false

/-- The display name `f"{firstName} {lastName}".strip()` of source lines
262 and 296. -/
def nameOf (c : Conn) : String :=
  pyStrip (c.firstName ++ " " ++ c.lastName)

/-- Python `' '.join`. -/
def joinSpace : List String → String
  | [] => ""
  | [s] => s
  | s :: ss => s ++ " " ++ joinSpace ss

/-- The search query `' '.join(filter(None, [name, position, company]))`
of source lines 263 and 297. -/
def queryOf (c : Conn) : String :=
  joinSpace (([nameOf c, c.position, c.company]).filter (fun s => !(s == "")))

/-- Decidable equality for `Except`, used to evaluate route responses on
concrete inputs. -/
instance {ε α : Type} [DecidableEq ε] [DecidableEq α] : DecidableEq (Except ε α) :=
  fun x y =>
    match x, y with
    | .ok a, .ok b =>
      match decEq a b with
      | isTrue h => isTrue (by rw [h])
      | isFalse h => isFalse (fun hh => h (Except.ok.inj hh))
    | .error a, .error b =>
      match decEq a b with
      | isTrue h => isTrue (by rw [h])
      | isFalse h => isFalse (fun hh => h (Except.error.inj hh))
    | .ok _, .error _ => isFalse (fun hh => Except.noConfusion hh)
    | .error _, .ok _ => isFalse (fun hh => Except.noConfusion hh)

/-- The persisted application state (source lines 23-26): the connection
list and the two credential strings, both defaulting to the empty
string. -/
structure AppData where
  connections : List Conn
  tavily : String
  gemini : String
deriving DecidableEq

/-- The default state returned by `load_data` when no file exists
(source line 26). -/
def initData : AppData :=
  { connections := [], tavily := "", gemini := "" }

/-- The `/api/data` route `get_data` (source lines 202-208): the
connection list plus `bool(tavily and gemini)`; the credential values
themselves are not part of the response. -/
def get_data (d : AppData) : List Conn × Bool :=
  (d.connections, !(d.tavily == "") && !(d.gemini == ""))

/-- The `/api/keys` route `save_keys` (source lines 210-219). -/
def save_keys (tavily gemini : String) (d : AppData) : AppData :=
  { d with tavily := tavily, gemini := gemini }

/-- The `/api/upload` route (source lines 221-245): parse the file and
replace the connection list, unless zero records were accepted, in which
case the stored state is left unchanged and an error is reported. -/
def upload_csv (now : Nat) (lines : List String) (d : AppData) :
    AppData × Except String Nat :=
  let cs := parse_linkedin_csv now lines
  if cs.isEmpty then (d, .error "No connections found in CSV")
  else ({ d with connections := cs }, .ok cs.length)

/-- Replace the first record carrying `connId` by its enriched version;
this is the in-place mutation of the record found by
`next(c for c in data["connections"] if c["id"] == conn_id)` at source
lines 257 and 268-269. -/
def setBlurbFirst (connId b t : String) : List Conn → List Conn
  | [] => []
  | c :: cs =>
    if c.id == connId then { c with blurb := some b, enrichedAt := some t } :: cs
    else c :: setBlurbFirst connId b t cs

/-- The `/api/enrich` route `enrich_connection` (source lines 247-274).
The oracle stands for the external search-then-summarise pair: `.ok b`
is the summary text produced (including the fixed fallback sentence that
`generate_blurb` substitutes for unparseable generation output), `.error
m` an exception raised by either call.  The third component is the trace
of search queries issued. -/
def enrich_connection (connId : String) (o : String → Except String String)
    (now : String) (d : AppData) :
    AppData × Except String String × List String :=
  if d.tavily = "" ∨ d.gemini = "" then (d, .error "API keys not configured", [])
  else
    match d.connections.find? (fun c => c.id == connId) with
    | none => (d, .error "Connection not found", [])
    | some c =>
      match o (queryOf c) with
      | .ok b =>
        ({ d with connections := setBlurbFirst connId b now d.connections },
          .ok b, [queryOf c])
      | .error m => (d, .error m, [queryOf c])

/-- Intermediate result of the batch loop: the updated connection list,
the enriched count, the error list and the trace of issued queries. -/
structure GoOut where
  conns : List Conn
  cnt : Nat
  errs : List String
  trace : List String
deriving DecidableEq

/-- The batch loop of source lines 291-310, walking the connection list
in order with the remaining selection budget (`[:10]`): a record with a
truthy summary is never selected; once the budget is exhausted nothing
further is touched; otherwise the record is attempted, on success both
summary and timestamp are written and the count incremented, on failure
the record is left unchanged and `f"{name}: {e}"` is appended to the
error list. -/
def enrichBatchGo (o : String → Except String String) (now : String) :
    List Conn → Nat → GoOut
  | [], _ => ⟨[], 0, [], []⟩
  | c :: cs, fuel =>
    if blurbTruthy c then
      let r := enrichBatchGo o now cs fuel
      ⟨c :: r.conns, r.cnt, r.errs, r.trace⟩
    else
      match fuel with
      | 0 => ⟨c :: cs, 0, [], []⟩
      | k + 1 =>
        match o (queryOf c) with
        | .ok b =>
          let r := enrichBatchGo o now cs k
          ⟨{ c with blurb := some b, enrichedAt := some now } :: r.conns,
            r.cnt + 1, r.errs, queryOf c :: r.trace⟩
        | .error m =>
          let r := enrichBatchGo o now cs k
          ⟨c :: r.conns, r.cnt, (nameOf c ++ ": " ++ m) :: r.errs,
            queryOf c :: r.trace⟩

/-- Successful payload of the batch route: the JSON object of source
lines 289 and 315-320.  The early return of line 289 carries no "errors"
key, modelled as `none`. -/
structure BatchOk where
  enriched : Nat
  remaining : Nat
  errors : Option (List String)
deriving DecidableEq

/-- The first `fuel` records of a list lacking a truthy summary, in list
order; the selection of source line 286 generalised over the budget. -/
def selTk (cs : List Conn) (fuel : Nat) : List Conn :=
  (cs.filter (fun c => !(blurbTruthy c))).take fuel

/-- The selection `[c for c in data["connections"] if not c.get("blurb")][:10]`
of source line 286. -/
def selectedOf (d : AppData) : List Conn :=
  selTk d.connections 10

/-- Number of records of a list still lacking a truthy summary, the
count of source line 314. -/
def countUnenr (cs : List Conn) : Nat :=
  cs.countP (fun c => !(blurbTruthy c))

/-- The `/api/enrich-batch` route `enrich_batch` (source lines 276-320),
with the same oracle convention as `enrich_connection`.  Returns the new
state, the response, and the trace of issued search queries. -/
def enrich_batch (o : String → Except String String) (now : String)
    (d : AppData) : AppData × Except String BatchOk × List String :=
  if d.tavily = "" ∨ d.gemini = "" then (d, .error "API keys not configured", [])
  else if (selectedOf d).isEmpty then (d, .ok ⟨0, 0, none⟩, [])
  else
    let r := enrichBatchGo o now d.connections 10
    ({ d with connections := r.conns },
      .ok ⟨r.cnt, countUnenr r.conns, some r.errs⟩, r.trace)

/-- One serialised network line of `chat_with_network` (source lines
163-167): bullet, name, position at company, and the summary clause only
when the summary is truthy. -/
def connLine (c : Conn) : String :=
  "• " ++ c.firstName ++ " " ++ c.lastName ++ ": " ++ c.position ++ " at " ++
    c.company ++ (if blurbTruthy c then " - " ++ (c.blurb.getD "") else "")

/-- Python `'\n'.join`. -/
def joinNl : List String → String
  | [] => ""
  | [s] => s
  | s :: ss => s ++ "\n" ++ joinNl ss

/-- The chat prompt of source lines 169-176, embedding the full record
serialisation with no length cap. -/
def chatPrompt (q : String) (cs : List Conn) : String :=
  "You are an assistant helping analyze a professional LinkedIn network. Below is the user's network of " ++
    toString cs.length ++ " connections.\n\nNETWORK:\n" ++
    joinNl (cs.map connLine) ++
    "\n\nUSER QUERY: " ++ q ++
    "\n\nAnalyze the network and provide a helpful, specific response. Reference specific people by name when relevant. Be concise but thorough."

/-- The `/api/chat` route (source lines 322-339): reject a blank query,
then reject a missing generation credential, then issue exactly one
generation call, whose outcome the oracle supplies (`.ok` already
covering the fixed fallback sentence for unparseable output). -/
def chat_route (q : String) (oc : String → Except String String)
    (d : AppData) : Except String String × List String :=
  if pyStrip q = "" then (.error "No query provided", [])
  else if d.gemini = "" then (.error "Gemini API key not configured", [])
  else
    match oc (chatPrompt q d.connections) with
    | .ok r => (.ok r, [chatPrompt q d.connections])
    | .error m => (.error m, [chatPrompt q d.connections])

/-- The `/api/reset` route (source lines 341-345): the data file is
deleted, so the next load yields the default state. -/
def reset_data (_ : AppData) : AppData :=
  initData

/-- One externally triggered operation of the service, with the outcomes
of the external collaborators packaged as oracle data. -/
inductive Op where
  | setKeys (tavily gemini : String)
  | upload (now : Nat) (lines : List String)
  | enrichOne (connId : String) (o : String → Except String String) (now : String)
  | enrichBatch (o : String → Except String String) (now : String)
  | reset

/-- State transition of one operation (responses projected away). -/
def applyOp (d : AppData) : Op → AppData
  | .setKeys t g => save_keys t g d
  | .upload now lines => (upload_csv now lines d).1
  | .enrichOne connId o now => (enrich_connection connId o now d).1
  | .enrichBatch o now => (enrich_batch o now d).1
  | .reset => reset_data d

/-- Run a sequence of operations from the default state. -/
def runOps (ops : List Op) : AppData :=
  ops.foldl applyOp initData

/-- Truthiness, as a boolean, of the keep condition of source line 65. -/
def rowKeepB (keys : List String) (l : String) : Bool :=
  !(rowGet keys (splitComma l) "first name" == "") ||
  !(rowGet keys (splitComma l) "last name" == "")

/-- Whether an oracle outcome is a successful enrichment (no exception
raised by the external calls). -/
def okB : Except String String → Bool
  | .ok _ => true
  | .error _ => false

/-- The error-list entry a record produces in the batch loop: `none` on
success, the `f"{name}: {e}"` string of source line 310 on failure. -/
def errEntry (o : String → Except String String) (c : Conn) : Option String :=
  match o (queryOf c) with
  | .ok _ => none
  | .error m => some (nameOf c ++ ": " ++ m)

/-- Whether attempting a record leaves it with a truthy summary: the
external calls succeeded and the produced summary text is non-empty. -/
def enrichedOkB (o : String → Except String String) (c : Conn) : Bool :=
  match o (queryOf c) with
  | .ok v => !(v == "")
  | .error _ => false

/-- Relation between a record before and after one batch pass: it is
either untouched, or it lacked a truthy summary, its oracle call
succeeded, and exactly its summary and timestamp were written. -/
def framePres (o : String → Except String String) (now : String)
    (a b : Conn) : Prop :=
  b = a ∨ (blurbTruthy a = false ∧
    ∃ v, o (queryOf a) = .ok v ∧
      b = { a with blurb := some v, enrichedAt := some now })

/-- A record whose summary and enrichment timestamp are both present or
both absent. -/
def connOk (c : Conn) : Prop :=
  c.blurb.isSome = c.enrichedAt.isSome

/-- A record with every field empty, used as a lookup default. -/
def defConn : Conn :=
  ⟨"", "", "", "", "", "", "", "", none, none, none⟩

/-- Raw export whose single data row has a whitespace-only first name
and an empty last name. -/
def exWs : List String :=
  ["First Name,Last Name", " ,"]

/-- Raw export with a one-line preamble, the vendor header, and one data
row. -/
def demoLines : List String :=
  ["Notes:",
   "First Name,Last Name,Email Address,Company,Position,URL,Connected On",
   "Jane,Doe,jd@x.io,Acme,Founder,,2020"]

/-- Oracle whose external calls always succeed with a fixed summary. -/
def oracleOk : String → Except String String :=
  fun _ => Except.ok "A fine professional."

/-- Demo operation sequence: configure credentials, ingest the demo
export, run one batch. -/
def demoOps : List Op :=
  [Op.setKeys "tv" "gm", Op.upload 0 demoLines, Op.enrichBatch oracleOk "ts"]

/-- An already-enriched record. -/
def cA : Conn :=
  { id := "a", firstName := "Ann", lastName := "Lee", email := "",
    company := "Acme", position := "CEO", url := "", connectedOn := "",
    blurb := some "Exec at Acme.", enrichedAt := some "t0",
    category := some "Executives" }

/-- An unenriched record whose enrichment the demo oracle fails. -/
def cB : Conn :=
  { id := "b", firstName := "Bob", lastName := "Fox", email := "",
    company := "Beta", position := "Engineer", url := "", connectedOn := "",
    blurb := none, enrichedAt := none, category := some "Engineering" }

/-- An unenriched record whose enrichment the demo oracle completes. -/
def cC : Conn :=
  { id := "c", firstName := "Cyd", lastName := "Roe", email := "",
    company := "", position := "", url := "", connectedOn := "",
    blurb := none, enrichedAt := none, category := some "Other" }

/-- Demo state with configured credentials and the three records. -/
def dDemo : AppData :=
  ⟨[cA, cB, cC], "tv", "gm"⟩

/-- Demo state with configured credentials whose single record is
already enriched. -/
def dAll : AppData :=
  ⟨[cA], "tv", "gm"⟩

/-- Demo state with empty credentials. -/
def dNoKeys : AppData :=
  ⟨[cA], "", ""⟩

/-- Oracle failing exactly on the query of `cB`. -/
def oDemo : String → Except String String :=
  fun q => if q == queryOf cB then Except.error "boom" else Except.ok "Fine summary."

/-- C10: the get-current-state response consists of the connection list
and one boolean that is true exactly when both stored credential strings
are non-empty; two states with equal records whose credentials agree on
emptiness produce identical responses, so the response never reveals the
credential values. -/
theorem c10_get_data_hides_credentials (d1 d2 : AppData)
    (hc : d1.connections = d2.connections)
    (ht : d1.tavily = "" ↔ d2.tavily = "")
    (hg : d1.gemini = "" ↔ d2.gemini = "") :
    get_data d1 = get_data d2 ∧
    ((get_data d1).2 = true ↔ (d1.tavily ≠ "" ∧ d1.gemini ≠ "")) := by
  have e1 : (d1.tavily == "") = (d2.tavily == "") := by
    rw [Bool.eq_iff_iff]
    simpa using ht
  have e2 : (d1.gemini == "") = (d2.gemini == "") := by
    rw [Bool.eq_iff_iff]
    simpa using hg
  constructor
  · simp only [get_data, hc, e1, e2]
  · simp [get_data]

/-- Witness for C10 at two concrete states with different non-empty
credentials and equal (empty) record lists. -/
theorem c10_witness :
    get_data ⟨[], "k1", "g1"⟩ = get_data ⟨[], "k2", "g2"⟩ ∧
    ((get_data ⟨[], "k1", "g1"⟩).2 = true ↔
      (AppData.tavily ⟨[], "k1", "g1"⟩ ≠ "" ∧ AppData.gemini ⟨[], "k1", "g1"⟩ ≠ "")) :=
  c10_get_data_hides_credentials ⟨[], "k1", "g1"⟩ ⟨[], "k2", "g2"⟩ rfl
    (by decide) (by decide)

/-- C6 (amended): the classifier evaluates its rules in a fixed order
and returns the first match, so a title matching a Leadership trigger
and a later rule's trigger — and no earlier rule's trigger (Founders,
Executives) — classifies as Leadership; a title that also matches an
earlier rule resolves to the earlier tag instead.  "VP of Sales" and
"Head of Engineering at Acme" classify as Leadership, and an empty or
absent title classifies as Other. -/
theorem c6_rule_order (position : String)
    (hF : foundersB (pyLower position) = false)
    (hE : executivesB (pyLower position) = false)
    (hL : leadershipB (pyLower position) = true) :
    categorize_position position = "Leadership" ∧
    categorize_position "VP of Sales" = "Leadership" ∧
    categorize_position "Head of Engineering at Acme" = "Leadership" ∧
    categorize_position "" = "Other" := by
  refine ⟨?_, by decide, by decide, by decide⟩
  simp only [categorize_position, hF, hE, hL]
  simp

/-- Counterexample to C6 as stated: "Owner and Director of Sales"
matches a Leadership trigger and the later Sales rule's trigger, yet the
classifier returns Founders, because the earlier Founders rule also
matches. -/
theorem c6_counterexample :
    leadershipB (pyLower "Owner and Director of Sales") = true ∧
    salesB (pyLower "Owner and Director of Sales") = true ∧
    categorize_position "Owner and Director of Sales" = "Founders" := by
  refine ⟨by decide, by decide, by decide⟩

/-- Witness for C6 at the concrete title "Vice President, Legal". -/
theorem c6_witness :
    foundersB (pyLower "Vice President, Legal") = false ∧
    executivesB (pyLower "Vice President, Legal") = false ∧
    leadershipB (pyLower "Vice President, Legal") = true ∧
    (categorize_position "Vice President, Legal" = "Leadership" ∧
      categorize_position "VP of Sales" = "Leadership" ∧
      categorize_position "Head of Engineering at Acme" = "Leadership" ∧
      categorize_position "" = "Other") :=
  ⟨by decide, by decide, by decide,
    c6_rule_order "Vice President, Legal" (by decide) (by decide) (by decide)⟩

/-- C7 (amended): with either credential empty, enrich-one and
enrich-batch return the configuration error with the state unchanged and
no external call issued; the chat route returns its configuration error
when the generation credential is empty and the question is non-blank,
while a blank question is rejected with the missing-input error first —
likewise before any external call. -/
theorem c7_missing_credentials (d : AppData) (connId : String)
    (o oc : String → Except String String) (q now : String) :
    (d.tavily = "" ∨ d.gemini = "" →
      enrich_connection connId o now d = (d, .error "API keys not configured", []) ∧
      enrich_batch o now d = (d, .error "API keys not configured", [])) ∧
    (pyStrip q ≠ "" → d.gemini = "" →
      chat_route q oc d = (.error "Gemini API key not configured", [])) ∧
    (pyStrip q = "" → chat_route q oc d = (.error "No query provided", [])) := by
  refine ⟨fun h => ⟨?_, ?_⟩, fun hq hg => ?_, fun hq => ?_⟩
  · simp [enrich_connection, h]
  · simp [enrich_batch, h]
  · simp [chat_route, hq, hg]
  · simp [chat_route, hq]

/-- Counterexample to C7 as stated: with the generation credential
absent but a blank question, the chat route fails with the missing-input
error, not the configuration error (still without any external call). -/
theorem c7_counterexample :
    chat_route "" oracleOk dNoKeys = (.error "No query provided", []) ∧
    ("No query provided" : String) ≠ "Gemini API key not configured" := by
  refine ⟨by decide, by decide⟩

/-- Witness for C7 at a concrete credential-less state. -/
theorem c7_witness :
    enrich_connection "x" oracleOk "t" dNoKeys =
      (dNoKeys, .error "API keys not configured", []) ∧
    enrich_batch oracleOk "t" dNoKeys =
      (dNoKeys, .error "API keys not configured", []) ∧
    chat_route "hi" oracleOk dNoKeys =
      (.error "Gemini API key not configured", []) := by
  have h := c7_missing_credentials dNoKeys "x" oracleOk oracleOk "hi" "t"
  exact ⟨(h.1 (Or.inl rfl)).1, (h.1 (Or.inl rfl)).2, h.2.1 (by decide) rfl⟩

/-- C4: with credentials configured, a batch call on a set in which
every record already has a (truthy) summary takes the early return of
source line 289: enriched 0, remaining 0, no error list, state
unchanged, and no external call issued. -/
theorem c4_batch_idempotent_when_all_enriched (d : AppData)
    (o : String → Except String String) (now : String)
    (ht : d.tavily ≠ "") (hg : d.gemini ≠ "")
    (hall : ∀ c ∈ d.connections, blurbTruthy c = true) :
    enrich_batch o now d = (d, .ok ⟨0, 0, none⟩, []) := by
  have hfil : d.connections.filter (fun c => !(blurbTruthy c)) = [] := by
    rw [List.filter_eq_nil_iff]
    intro c hc
    simp [hall c hc]
  have hsel : selectedOf d = [] := by
    simp [selectedOf, selTk, hfil]
  simp [enrich_batch, ht, hg, hsel]

/-- Witness for C4 at a concrete fully-enriched state. -/
theorem c4_witness :
    dAll.tavily ≠ "" ∧ dAll.gemini ≠ "" ∧
    (∀ c ∈ dAll.connections, blurbTruthy c = true) ∧
    enrich_batch oracleOk "t" dAll = (dAll, .ok ⟨0, 0, none⟩, []) :=
  ⟨by decide, by decide, by decide,
    c4_batch_idempotent_when_all_enriched dAll oracleOk "t"
      (by decide) (by decide) (by decide)⟩

/-- The keep test of `buildRow` is exactly the truthiness of the two
name cells. -/
theorem buildRow_isSome (keys : List String) (now : Nat) (p : Nat × String) :
    (buildRow keys now p).isSome = rowKeepB keys p.2 := by
  simp only [buildRow, rowKeepB]
  by_cases h1 : rowGet keys (splitComma p.2) "first name" = "" <;>
    by_cases h2 : rowGet keys (splitComma p.2) "last name" = "" <;>
      simp [h1, h2]

/-- The records a `buildRow` success carries are born unenriched with a
name cell that is truthy. -/
theorem buildRow_some (keys : List String) (now : Nat) (p : Nat × String)
    (c : Conn) (h : buildRow keys now p = some c) :
    (c.firstName ≠ "" ∨ c.lastName ≠ "") ∧ c.blurb = none ∧ c.enrichedAt = none := by
  simp only [buildRow] at h
  split at h
  · rename_i hk
    cases h
    exact ⟨hk, rfl, rfl⟩
  · cases h

/-- The row loop yields one record per row whose keep test holds. -/
theorem parseRowsFrom_length (keys : List String) (now : Nat) :
    ∀ (ls : List String) (i : Nat),
      (parseRowsFrom keys now i ls).length = ls.countP (rowKeepB keys) := by
  intro ls
  induction ls with
  | nil => intro i; rfl
  | cons l ls ih =>
    intro i
    have hrow := buildRow_isSome keys now (i, l)
    cases hb : buildRow keys now (i, l) with
    | none =>
      rw [hb] at hrow
      simp only [parseRowsFrom, hb, List.countP_cons, ← hrow]
      simp [ih]
    | some c =>
      rw [hb] at hrow
      simp only [parseRowsFrom, hb, List.countP_cons, ← hrow]
      simp [ih]

/-- Every record the row loop yields has a truthy name cell and is born
unenriched. -/
theorem parseRowsFrom_mem (keys : List String) (now : Nat) :
    ∀ (ls : List String) (i : Nat) (c : Conn),
      c ∈ parseRowsFrom keys now i ls →
      (c.firstName ≠ "" ∨ c.lastName ≠ "") ∧ c.blurb = none ∧ c.enrichedAt = none := by
  intro ls
  induction ls with
  | nil => intro i c hc; cases hc
  | cons l ls ih =>
    intro i c hc
    simp only [parseRowsFrom] at hc
    cases hb : buildRow keys now (i, l) with
    | none =>
      rw [hb] at hc
      exact ih (i + 1) c hc
    | some c0 =>
      rw [hb] at hc
      cases hc with
      | head => exact buildRow_some keys now (i, l) c hb
      | tail _ h => exact ih (i + 1) c h

/-- C1 (amended): a parsed row contributes a Record exactly when at
least one of its first-name and last-name cells is non-empty as stored —
no trimming is applied, so a whitespace-only name counts as present —
and rows failing the test are dropped silently, without an error. -/
theorem c1_row_kept_iff_name_nonempty (now : Nat) (header : String)
    (rest : List String) :
    (parseBody now (header :: rest)).length =
      (rest.filter (fun l => !(l == ""))).countP (rowKeepB (headerKeys header)) ∧
    ∀ c ∈ parseBody now (header :: rest), c.firstName ≠ "" ∨ c.lastName ≠ "" := by
  constructor
  · simpa only [parseBody] using
      parseRowsFrom_length (headerKeys header) now (rest.filter (fun l => !(l == ""))) 0
  · intro c hc
    simp only [parseBody] at hc
    exact (parseRowsFrom_mem (headerKeys header) now _ 0 c hc).1

/-- Counterexample to C1 as stated: the export `exWs` has one data row
whose first name is a single space and whose last name is empty — both
empty after trimming — yet the row contributes a Record. -/
theorem c1_counterexample :
    (parse_linkedin_csv 0 exWs).length = 1 ∧
    pyStrip ((parse_linkedin_csv 0 exWs).getD 0 defConn).firstName = "" ∧
    pyStrip ((parse_linkedin_csv 0 exWs).getD 0 defConn).lastName = "" := by
  refine ⟨by decide, by decide, by decide⟩

/-- Witness for C1 at a concrete export with one kept row. -/
theorem c1_witness :
    (parseBody 0 ("First Name,Last Name" :: ["Jane,Doe"])).length =
      (["Jane,Doe"].filter (fun l => !(l == ""))).countP
        (rowKeepB (headerKeys "First Name,Last Name")) ∧
    (((parseBody 0 ["First Name,Last Name", "Jane,Doe"]).getD 0 defConn).firstName ≠ "" ∨
      ((parseBody 0 ["First Name,Last Name", "Jane,Doe"]).getD 0 defConn).lastName ≠ "") :=
  ⟨(c1_row_kept_iff_name_nonempty 0 "First Name,Last Name" ["Jane,Doe"]).1,
    (c1_row_kept_iff_name_nonempty 0 "First Name,Last Name" ["Jane,Doe"]).2
      ((parseBody 0 ["First Name,Last Name", "Jane,Doe"]).getD 0 defConn) (by decide)⟩

/-- The header scan returns the accumulator plus the least matching
index. -/
theorem findFrom_of_min :
    ∀ (lines : List String) (k i : Nat), i < lines.length →
      isHeaderLine (lines.getD i "") = true →
      (∀ j, j < i → isHeaderLine (lines.getD j "") = false) →
      findHeaderIdxFrom k lines = k + i := by
  intro lines
  induction lines with
  | nil => intro k i hi _ _; simp at hi
  | cons l ls ih =>
    intro k i hi hh hmin
    cases i with
    | zero =>
      simp only [List.getD_cons_zero] at hh
      simp [findHeaderIdxFrom, hh]
    | succ n =>
      have h0 : isHeaderLine l = false := by
        simpa using hmin 0 (Nat.succ_pos n)
      have hrec := ih (k + 1) n (by simpa using hi)
        (by simpa using hh)
        (fun j hj => by simpa using hmin (j + 1) (by omega))
      simp only [findHeaderIdxFrom, h0, Bool.false_eq_true, if_false]
      rw [hrec]
      omega

/-- The header scan leaves the index at 0 when no line matches. -/
theorem findFrom_of_none :
    ∀ (lines : List String) (k : Nat),
      (∀ j, j < lines.length → isHeaderLine (lines.getD j "") = false) →
      findHeaderIdxFrom k lines = 0 := by
  intro lines
  induction lines with
  | nil => intro k _; rfl
  | cons l ls ih =>
    intro k hnone
    have h0 : isHeaderLine l = false := by
      simpa using hnone 0 (by simp)
    simp only [findHeaderIdxFrom, h0, Bool.false_eq_true, if_false]
    exact ih (k + 1) (fun j hj => by simpa using hnone (j + 1) (by simpa using hj))

/-- C8: the parser's header row is the first line whose lower-cased
content contains both the "first name" and the "last name" labels; the
parse result is computed from the lines from that header onward, so
every preamble line is discarded and contributes no record; if no line
matches, the header index defaults to 0 and parsing starts from the
first line. -/
theorem c8_header_scan (now : Nat) (lines : List String) :
    (∀ i, i < lines.length → isHeaderLine (lines.getD i "") = true →
      (∀ j, j < i → isHeaderLine (lines.getD j "") = false) →
      findHeaderIdx lines = i ∧
      parse_linkedin_csv now lines = parseBody now (lines.drop i)) ∧
    ((∀ j, j < lines.length → isHeaderLine (lines.getD j "") = false) →
      findHeaderIdx lines = 0 ∧
      parse_linkedin_csv now lines = parseBody now lines) := by
  constructor
  · intro i hi hh hmin
    have hidx : findHeaderIdx lines = i := by
      simpa [findHeaderIdx] using findFrom_of_min lines 0 i hi hh hmin
    exact ⟨hidx, by rw [parse_linkedin_csv, hidx]⟩
  · intro hnone
    have hidx : findHeaderIdx lines = 0 := findFrom_of_none lines 0 hnone
    exact ⟨hidx, by rw [parse_linkedin_csv, hidx, List.drop_zero]⟩

/-- Witness for C8 at the demo export, whose header is line 1 and whose
line 0 is preamble. -/
theorem c8_witness :
    findHeaderIdx demoLines = 1 ∧
    parse_linkedin_csv 0 demoLines = parseBody 0 (demoLines.drop 1) :=
  (c8_header_scan 0 demoLines).1 1 (by decide) (by decide) (by decide)

/-- Appending two strings around a space never yields the empty
string. -/
theorem strApp_ne_empty (a b : String) : a ++ (" " ++ b) ≠ "" := by
  intro h
  have hd : (a ++ (" " ++ b)).data = ([] : List Char) := by rw [h]
  simp only [show ∀ (x y : String), (x ++ y).data = x.data ++ y.data from
    fun _ _ => rfl] at hd
  simp at hd

/-- C9 (amended): the search query is the space-join of the record's
full display name, position and company, each included only when
non-empty; in particular when the name is empty the query still forms
from the remaining fields without error.  The query is empty exactly
when all three components are empty — so the non-emptiness the claim
asserts fails for a record whose name cells are whitespace-only and
whose position and company are empty. -/
theorem c9_query_join (c : Conn) :
    (queryOf c = "" ↔ (nameOf c = "" ∧ c.position = "" ∧ c.company = "")) ∧
    (nameOf c ≠ "" → c.position ≠ "" → c.company ≠ "" →
      queryOf c = nameOf c ++ " " ++ c.position ++ " " ++ c.company) ∧
    (nameOf c = "" →
      queryOf c = joinSpace ([c.position, c.company].filter (fun s => !(s == "")))) := by
  by_cases h1 : nameOf c = "" <;> by_cases h2 : c.position = "" <;>
    by_cases h3 : c.company = "" <;>
      simp [queryOf, joinSpace, h1, h2, h3, strApp_ne_empty, String.append_assoc]

/-- Counterexample to C9 as stated: the record parsed from `exWs` — a
Record of the system, kept because its raw first name is a single
space — has the empty string as its search query. -/
theorem c9_counterexample :
    (parse_linkedin_csv 0 exWs).length = 1 ∧
    queryOf ((parse_linkedin_csv 0 exWs).getD 0 defConn) = "" := by
  refine ⟨by decide, by decide⟩

/-- Witness for C9 at a concrete record with all components present. -/
theorem c9_witness :
    nameOf cB ≠ "" ∧
    queryOf cB = nameOf cB ++ " " ++ cB.position ++ " " ++ cB.company :=
  ⟨by decide, (c9_query_join cB).2.1 (by decide) (by decide) (by decide)⟩

/-- Writing a summary and timestamp makes the summary's truthiness that
of the written text. -/
theorem blurbTruthy_update (c : Conn) (b t : String) :
    blurbTruthy { c with blurb := some b, enrichedAt := some t } = !(b == "") := rfl

/-- Unenriched count over a cons. -/
theorem countUnenr_cons (c : Conn) (cs : List Conn) :
    countUnenr (c :: cs) = countUnenr cs + (if blurbTruthy c then 0 else 1) := by
  simp only [countUnenr, List.countP_cons]
  cases hbc : blurbTruthy c <;> simp

/-- The before/after relation of a batch pass is reflexive, list-wise. -/
theorem framePres_list_refl (o : String → Except String String) (now : String)
    (l : List Conn) : List.Forall₂ (framePres o now) l l :=
  List.forall₂_same.mpr (fun _ _ => Or.inl rfl)

/-- Master description of the batch loop: the issued queries are exactly
those of the first `fuel` unenriched records in order; the error list
collects exactly the failures' `name: reason` entries in order; the
enriched count is the number of successful oracle calls among the
selection; the unenriched count drops by exactly the number of selected
records whose enrichment produced a truthy summary; and each record is
either untouched or atomically given a summary and timestamp. -/
theorem go_spec (o : String → Except String String) (now : String) :
    ∀ (cs : List Conn) (fuel : Nat),
      (enrichBatchGo o now cs fuel).trace = (selTk cs fuel).map queryOf ∧
      (enrichBatchGo o now cs fuel).errs = (selTk cs fuel).filterMap (errEntry o) ∧
      (enrichBatchGo o now cs fuel).cnt =
        (selTk cs fuel).countP (fun c => okB (o (queryOf c))) ∧
      countUnenr cs =
        countUnenr (enrichBatchGo o now cs fuel).conns +
          (selTk cs fuel).countP (enrichedOkB o) ∧
      List.Forall₂ (framePres o now) cs (enrichBatchGo o now cs fuel).conns := by
  intro cs
  induction cs with
  | nil =>
    intro fuel
    refine ⟨?_, ?_, ?_, ?_, ?_⟩ <;> simp [enrichBatchGo, selTk, countUnenr]
  | cons c cs ih =>
    intro fuel
    by_cases hb : blurbTruthy c
    · obtain ⟨h1, h2, h3, h4, h5⟩ := ih fuel
      have hsel : selTk (c :: cs) fuel = selTk cs fuel := by
        simp [selTk, List.filter_cons, hb]
      have hgo : enrichBatchGo o now (c :: cs) fuel =
          ⟨c :: (enrichBatchGo o now cs fuel).conns,
            (enrichBatchGo o now cs fuel).cnt,
            (enrichBatchGo o now cs fuel).errs,
            (enrichBatchGo o now cs fuel).trace⟩ := by
        simp [enrichBatchGo, hb]
      rw [hgo, hsel]
      refine ⟨h1, h2, h3, ?_, List.Forall₂.cons (Or.inl rfl) h5⟩
      rw [countUnenr_cons, countUnenr_cons, hb]
      omega
    · have hb' : blurbTruthy c = false := by
        simpa using hb
      cases fuel with
      | zero =>
        have hgo : enrichBatchGo o now (c :: cs) 0 = ⟨c :: cs, 0, [], []⟩ := by
          simp [enrichBatchGo, hb']
        have hsel : selTk (c :: cs) 0 = [] := by
          simp [selTk]
        rw [hgo, hsel]
        exact ⟨rfl, rfl, rfl, by simp, framePres_list_refl o now (c :: cs)⟩
      | succ k =>
        obtain ⟨h1, h2, h3, h4, h5⟩ := ih k
        have hsel : selTk (c :: cs) (k + 1) = c :: selTk cs k := by
          simp [selTk, List.filter_cons, hb', List.take_succ_cons]
        cases ho : o (queryOf c) with
        | ok b =>
          have hgo : enrichBatchGo o now (c :: cs) (k + 1) =
              ⟨{ c with blurb := some b, enrichedAt := some now } ::
                  (enrichBatchGo o now cs k).conns,
                (enrichBatchGo o now cs k).cnt + 1,
                (enrichBatchGo o now cs k).errs,
                queryOf c :: (enrichBatchGo o now cs k).trace⟩ := by
            simp [enrichBatchGo, hb', ho]
          rw [hgo, hsel]
          refine ⟨?_, ?_, ?_, ?_, List.Forall₂.cons (Or.inr ⟨hb', b, ho, rfl⟩) h5⟩
          · simp [h1]
          · simp [List.filterMap_cons, errEntry, ho, h2]
          · simp [List.countP_cons, okB, ho, h3]
          · rw [countUnenr_cons, countUnenr_cons, hb', blurbTruthy_update,
              List.countP_cons, h4]
            have he : enrichedOkB o c = !(b == "") := by
              simp [enrichedOkB, ho]
            rw [he]
            by_cases hbv : b = "" <;> simp [hbv] <;> omega
        | error m =>
          have hgo : enrichBatchGo o now (c :: cs) (k + 1) =
              ⟨c :: (enrichBatchGo o now cs k).conns,
                (enrichBatchGo o now cs k).cnt,
                (nameOf c ++ ": " ++ m) :: (enrichBatchGo o now cs k).errs,
                queryOf c :: (enrichBatchGo o now cs k).trace⟩ := by
            simp [enrichBatchGo, hb', ho]
          rw [hgo, hsel]
          refine ⟨?_, ?_, ?_, ?_, List.Forall₂.cons (Or.inl rfl) h5⟩
          · simp [h1]
          · simp [List.filterMap_cons, errEntry, ho, h2]
          · simp [List.countP_cons, okB, ho, h3]
          · rw [countUnenr_cons, countUnenr_cons, hb', List.countP_cons, h4]
            have he : enrichedOkB o c = false := by
              simp [enrichedOkB, ho]
            rw [he]
            simp
            omega

/-- C3: in a configured, non-trivial batch call, every selected record
is attempted in order (the issued queries are exactly the selection's
queries); the response carries the success count, the recomputed
remaining count and the error list made of exactly the failed records'
`name: reason` entries in order; the set's unenriched count drops by
exactly the number of records actually enriched (those that gained a
truthy summary); and every record whose oracle call failed — in
particular a mid-batch failure — is left completely unchanged, hence
still summary-less and eligible for the next batch call. -/
theorem c3_batch_partial_failure_isolation (d : AppData)
    (o : String → Except String String) (now : String)
    (ht : d.tavily ≠ "") (hg : d.gemini ≠ "") (hne : selectedOf d ≠ []) :
    (enrich_batch o now d).2.2 = (selectedOf d).map queryOf ∧
    (enrich_batch o now d).2.1 =
      Except.ok ⟨(selectedOf d).countP (fun c => okB (o (queryOf c))),
        countUnenr (enrich_batch o now d).1.connections,
        some ((selectedOf d).filterMap (errEntry o))⟩ ∧
    countUnenr d.connections =
      countUnenr (enrich_batch o now d).1.connections +
        (selectedOf d).countP (enrichedOkB o) ∧
    List.Forall₂ (fun a b => okB (o (queryOf a)) = false → b = a)
      d.connections (enrich_batch o now d).1.connections := by
  have hKeys : ¬(d.tavily = "" ∨ d.gemini = "") := by tauto
  have hne' : (selectedOf d).isEmpty = false := by
    simpa [List.isEmpty_iff] using hne
  have hE : enrich_batch o now d =
      ({ d with connections := (enrichBatchGo o now d.connections 10).conns },
        .ok ⟨(enrichBatchGo o now d.connections 10).cnt,
          countUnenr (enrichBatchGo o now d.connections 10).conns,
          some (enrichBatchGo o now d.connections 10).errs⟩,
        (enrichBatchGo o now d.connections 10).trace) := by
    simp [enrich_batch, hKeys, hne']
  obtain ⟨h1, h2, h3, h4, h5⟩ := go_spec o now d.connections 10
  rw [hE]
  refine ⟨?_, ?_, ?_, ?_⟩
  · simpa [selectedOf] using h1
  · simp only [selectedOf]
    simp [h2, h3]
  · simpa [selectedOf] using h4
  · refine h5.imp (fun a b hR => ?_)
    intro hfail
    cases hR with
    | inl h => exact h
    | inr h =>
      obtain ⟨_, v, hov, _⟩ := h
      rw [hov] at hfail
      simp [okB] at hfail

/-- Witness for C3 at a concrete state whose oracle fails on the first
selected record and succeeds on the second. -/
theorem c3_witness :
    dDemo.tavily ≠ "" ∧ dDemo.gemini ≠ "" ∧ selectedOf dDemo ≠ [] ∧
    (enrich_batch oDemo "t1" dDemo).2.2 = (selectedOf dDemo).map queryOf ∧
    countUnenr dDemo.connections =
      countUnenr (enrich_batch oDemo "t1" dDemo).1.connections +
        (selectedOf dDemo).countP (enrichedOkB oDemo) :=
  ⟨by decide, by decide, by decide,
    (c3_batch_partial_failure_isolation dDemo oDemo "t1"
      (by decide) (by decide) (by decide)).1,
    (c3_batch_partial_failure_isolation dDemo oDemo "t1"
      (by decide) (by decide) (by decide)).2.2.1⟩

/-- C5: a configured batch call attempts exactly the first at most 10
summary-less records in RecordSet order — the selection has length at
most 10, consists only of summary-less records, and is an in-order
sublist of the set — and every record whose summary was already (truthy)
set before the call is left with all of its fields unchanged. -/
theorem c5_batch_selection_and_frame (d : AppData)
    (o : String → Except String String) (now : String)
    (ht : d.tavily ≠ "") (hg : d.gemini ≠ "") :
    (enrich_batch o now d).2.2 = (selectedOf d).map queryOf ∧
    (selectedOf d).length ≤ 10 ∧
    (∀ c ∈ selectedOf d, blurbTruthy c = false) ∧
    (selectedOf d).Sublist d.connections ∧
    List.Forall₂ (fun a b => blurbTruthy a = true → b = a)
      d.connections (enrich_batch o now d).1.connections := by
  have hKeys : ¬(d.tavily = "" ∨ d.gemini = "") := by tauto
  have hlen : (selectedOf d).length ≤ 10 := by
    simp only [selectedOf, selTk]
    rw [List.length_take]
    omega
  have hmem : ∀ c ∈ selectedOf d, blurbTruthy c = false := by
    intro c hc
    have hc' := List.take_subset _ _ hc
    have := (List.mem_filter.mp hc').2
    simpa using this
  have hsub : (selectedOf d).Sublist d.connections :=
    (List.take_sublist _ _).trans (List.filter_sublist _)
  by_cases hne : selectedOf d = []
  · have hE : enrich_batch o now d = (d, .ok ⟨0, 0, none⟩, []) := by
      simp [enrich_batch, hKeys, hne]
    rw [hE]
    exact ⟨by simp [hne], hlen, hmem, hsub,
      List.forall₂_same.mpr (fun _ _ _ => rfl)⟩
  · have hne' : (selectedOf d).isEmpty = false := by
      simpa [List.isEmpty_iff] using hne
    have hE : enrich_batch o now d =
        ({ d with connections := (enrichBatchGo o now d.connections 10).conns },
          .ok ⟨(enrichBatchGo o now d.connections 10).cnt,
            countUnenr (enrichBatchGo o now d.connections 10).conns,
            some (enrichBatchGo o now d.connections 10).errs⟩,
          (enrichBatchGo o now d.connections 10).trace) := by
      simp [enrich_batch, hKeys, hne']
    obtain ⟨h1, _, _, _, h5⟩ := go_spec o now d.connections 10
    rw [hE]
    refine ⟨by simpa [selectedOf] using h1, hlen, hmem, hsub, ?_⟩
    refine h5.imp (fun a b hR => ?_)
    intro htr
    cases hR with
    | inl h => exact h
    | inr h => rw [h.1] at htr; cases htr

/-- Witness for C5 at a concrete configured state with one enriched and
two unenriched records. -/
theorem c5_witness :
    dDemo.tavily ≠ "" ∧ dDemo.gemini ≠ "" ∧
    (enrich_batch oracleOk "t1" dDemo).2.2 = (selectedOf dDemo).map queryOf ∧
    (selectedOf dDemo).length ≤ 10 :=
  ⟨by decide, by decide,
    (c5_batch_selection_and_frame dDemo oracleOk "t1" (by decide) (by decide)).1,
    (c5_batch_selection_and_frame dDemo oracleOk "t1" (by decide) (by decide)).2.1⟩

/-- One batch step preserves the summary/timestamp pairing of a
record. -/
theorem framePres_connOk (o : String → Except String String) (now : String)
    (a b : Conn) (h : framePres o now a b) (ha : connOk a) : connOk b := by
  cases h with
  | inl h => rw [h]; exact ha
  | inr h =>
    obtain ⟨_, v, _, hb⟩ := h
    rw [hb]
    rfl

/-- A batch pass preserves the summary/timestamp pairing of every
record. -/
theorem forall₂_connOk (o : String → Except String String) (now : String) :
    ∀ {l1 l2 : List Conn}, List.Forall₂ (framePres o now) l1 l2 →
      (∀ c ∈ l1, connOk c) → ∀ c ∈ l2, connOk c := by
  intro l1 l2 h
  induction h with
  | nil => intro _ c hc; cases hc
  | cons hab _ ih =>
    intro hall c hc
    cases hc with
    | head => exact framePres_connOk _ _ _ _ hab (hall _ (List.mem_cons_self _ _))
    | tail _ hc => exact ih (fun x hx => hall x (List.mem_cons_of_mem _ hx)) c hc

/-- Single-record enrichment preserves the summary/timestamp pairing of
every record: the touched record receives both fields at once. -/
theorem setBlurbFirst_connOk (connId b t : String) :
    ∀ (cs : List Conn), (∀ c ∈ cs, connOk c) →
      ∀ c ∈ setBlurbFirst connId b t cs, connOk c := by
  intro cs
  induction cs with
  | nil => intro _ c hc; cases hc
  | cons c0 cs ih =>
    intro hall c hc
    simp only [setBlurbFirst] at hc
    split at hc
    · cases hc with
      | head => rfl
      | tail _ hc => exact hall c (List.mem_cons_of_mem _ hc)
    · cases hc with
      | head => exact hall _ (List.mem_cons_self _ _)
      | tail _ hc => exact ih (fun x hx => hall x (List.mem_cons_of_mem _ hx)) c hc

/-- Every record the parser yields starts with neither summary nor
timestamp. -/
theorem parse_born_unenriched (now : Nat) (lines : List String) :
    ∀ c ∈ parse_linkedin_csv now lines, c.blurb = none ∧ c.enrichedAt = none := by
  intro c hc
  unfold parse_linkedin_csv parseBody at hc
  split at hc
  · cases hc
  · exact (parseRowsFrom_mem _ now _ 0 c hc).2

/-- The state after enrich-one is either unchanged or the stored list
with one record's summary and timestamp written together. -/
theorem enrich_connection_state (connId : String)
    (o : String → Except String String) (now : String) (d : AppData) :
    (enrich_connection connId o now d).1 = d ∨
    ∃ b, (enrich_connection connId o now d).1 =
      { d with connections := setBlurbFirst connId b now d.connections } := by
  unfold enrich_connection
  split
  · exact Or.inl rfl
  · split
    · exact Or.inl rfl
    · split
      · rename_i b _
        exact Or.inr ⟨b, rfl⟩
      · exact Or.inl rfl

/-- The state after enrich-batch is either unchanged or the stored list
after one batch pass. -/
theorem enrich_batch_state (o : String → Except String String) (now : String)
    (d : AppData) :
    (enrich_batch o now d).1 = d ∨
    (enrich_batch o now d).1 =
      { d with connections := (enrichBatchGo o now d.connections 10).conns } := by
  unfold enrich_batch
  split
  · exact Or.inl rfl
  · split
    · exact Or.inl rfl
    · exact Or.inr rfl

/-- Every operation preserves the summary/timestamp pairing of every
stored record. -/
theorem applyOp_connOk (d : AppData) (op : Op)
    (h : ∀ c ∈ d.connections, connOk c) :
    ∀ c ∈ (applyOp d op).connections, connOk c := by
  cases op with
  | setKeys t g => simpa [applyOp, save_keys] using h
  | upload now lines =>
    simp only [applyOp, upload_csv]
    split
    · exact h
    · intro c hc
      have := parse_born_unenriched now lines c hc
      simp [connOk, this.1, this.2]
  | enrichOne connId o now =>
    cases enrich_connection_state connId o now d with
    | inl he => simpa [applyOp, he] using h
    | inr he =>
      obtain ⟨b, he⟩ := he
      simp only [applyOp, he]
      exact setBlurbFirst_connOk connId b now d.connections h
  | enrichBatch o now =>
    cases enrich_batch_state o now d with
    | inl he => simpa [applyOp, he] using h
    | inr he =>
      simp only [applyOp, he]
      exact forall₂_connOk o now (go_spec o now d.connections 10).2.2.2.2 h
  | reset => intro c hc; cases hc

/-- C2: after any sequence of operations — ingestion, enrich-one,
enrich-batch, together with credential updates and resets — every stored
record has its summary and its enrichment timestamp either both set or
both absent; no reachable state exhibits exactly one of the two. -/
theorem c2_enrichment_atomicity (ops : List Op) :
    ∀ c ∈ (runOps ops).connections, c.blurb.isSome = c.enrichedAt.isSome := by
  have key : ∀ (ops : List Op) (d : AppData), (∀ c ∈ d.connections, connOk c) →
      ∀ c ∈ (ops.foldl applyOp d).connections, connOk c := by
    intro ops
    induction ops with
    | nil => intro d h; exact h
    | cons op ops ih =>
      intro d h
      exact ih (applyOp d op) (applyOp_connOk d op h)
  exact key ops initData (by intro c hc; cases hc)

/-- Witness for C2 at a concrete run: configure keys, ingest the demo
export, enrich one batch, and read the first stored record. -/
theorem c2_witness :
    ((runOps demoOps).connections.getD 0 defConn).blurb.isSome =
      ((runOps demoOps).connections.getD 0 defConn).enrichedAt.isSome :=
  c2_enrichment_atomicity demoOps _ (by decide)

end NetworkIQ
